import Mathlib

/-!
Shallow embedding of the Christmas Delivery scene (src/main.cpp) and proofs
about its height-field query, mesh generators, and per-frame parcel
simulation.  Scalar arithmetic is embedded in the rationals; the
floating-point transcendental functions (cos, sin, and the sqrt inside
glm::normalize / glm::distance) are abstracted as parameters, so every
general theorem holds for an arbitrary interpretation of them.
-/

namespace Indiv3

/-- A loaded sf::Image as seen by getTerrainHeight: its pixel size and the
red channel of the byte buffer that getPixel reads.  The field red is total
on purpose: indexing past the pixel buffer in C++ is an out-of-bounds read
returning whatever bytes happen to sit there, which the model captures by
leaving values at out-of-range indices unconstrained. -/
structure Image where
  width : ℕ
  height : ℕ
  red : ℕ → ℕ → ℕ

/-- Subtraction of 1 in C++ unsigned int arithmetic, wrapping at 2^32.
Used by the clamp x = heightMap.getSize().x - 1 in src/main.cpp line 338. -/
def u32pred (n : ℕ) : ℕ := (n + 4294967296 - 1) % 4294967296

/-- Truncating cast (unsigned int)q of src/main.cpp lines 336-337; negative
values are mapped to 0 (the in-range arguments of the program are
nonnegative). -/
def truncToNat (q : ℚ) : ℕ := (⌊q⌋ : ℤ).toNat

/-- Pixel coordinates that the getPixel call inside getTerrainHeight
(src/main.cpp lines 330-340) reads, or none when the out-of-footprint guard
on line 333 returns early.  Mirrors the source line by line: map the world
coordinate into [0,1], truncate to a pixel index, then clamp with the
unsigned subtraction getSize() - 1. -/
def getTerrainHeightPixel (worldX worldZ : ℚ) (heightMap : Image)
    (terrainScale : ℚ) : Option (ℕ × ℕ) :=
  let mapSize := 100 * terrainScale
  let halfSize := mapSize / 2
  if worldX < -halfSize ∨ worldX > halfSize ∨ worldZ < -halfSize ∨ worldZ > halfSize then
    none
  else
    let u := (worldX + halfSize) / mapSize
    let v := (worldZ + halfSize) / mapSize
    let x0 := truncToNat (u * (heightMap.width : ℚ))
    let y0 := truncToNat (v * (heightMap.height : ℚ))
    let x := if heightMap.width ≤ x0 then u32pred heightMap.width else x0
    let y := if heightMap.height ≤ y0 then u32pred heightMap.height else y0
    some (x, y)

/-- Height query of src/main.cpp lines 330-342: 0 outside the footprint,
otherwise the scaled red channel of the pixel selected by
getTerrainHeightPixel. -/
def getTerrainHeight (worldX worldZ : ℚ) (heightMap : Image)
    (terrainScale terrainHeightScale : ℚ) : ℚ :=
  match getTerrainHeightPixel worldX worldZ heightMap terrainScale with
  | none => 0
  | some (x, y) => ((heightMap.red x y : ℚ) / 255) * terrainHeightScale

/-- Predicate that a pixel coordinate pair lies inside the image. -/
def Image.inBounds (img : Image) (p : ℕ × ℕ) : Prop :=
  p.1 < img.width ∧ p.2 < img.height

instance (img : Image) (p : ℕ × ℕ) : Decidable (img.inBounds p) := by
  unfold Image.inBounds; infer_instance

/-- Image left behind when sf::Image::loadFromFile fails (src/main.cpp line
411): zero size.  The bytes an out-of-bounds getPixel would read are
unspecified; this instance fixes them to 255 to stand for garbage memory. -/
def failedLoadImage : Image := ⟨0, 0, fun _ _ => 255⟩

/-- One-by-one image whose single pixel has full red intensity; used to
exhibit boundary behaviour of getTerrainHeight. -/
def edgeImage : Image := ⟨1, 1, fun _ _ => 255⟩

/-- C2: the claim states that on an image that failed to load (zero size)
getTerrainHeight answers every query with 0 and never reads a pixel outside
the image.  Evaluating the code at the failing input worldX = worldZ = 0,
terrainScale = 2, terrainHeightScale = 10 shows the opposite: the clamp
getSize().x - 1 wraps around in unsigned arithmetic to 4294967295, the
getPixel call reads far outside the empty image (undefined behaviour), and
the returned elevation is whatever the garbage bytes dictate (here 10, not
0). -/
theorem getTerrainHeight_failed_load_reads_out_of_bounds :
    getTerrainHeightPixel 0 0 failedLoadImage 2 = some (4294967295, 4294967295) ∧
    ¬ failedLoadImage.inBounds (4294967295, 4294967295) ∧
    getTerrainHeight 0 0 failedLoadImage 2 10 = 10 := by
  have hp : getTerrainHeightPixel 0 0 failedLoadImage 2 = some (4294967295, 4294967295) := by
    norm_num [getTerrainHeightPixel, truncToNat, u32pred, failedLoadImage]
  refine ⟨hp, by norm_num [Image.inBounds, failedLoadImage], ?_⟩
  rw [getTerrainHeight, hp]
  norm_num [failedLoadImage]

/-- C4 counterexample: the claim asserts elevation 0 at or beyond the
half-extent boundary halfSize = 100 * terrainScale / 2.  At worldX exactly
equal to halfSize (= 100 for terrainScale 2) the guard of line 333 is strict,
so the code samples the edge pixel instead: on a 1x1 full-red image with
terrainHeightScale 10 it returns 10, not 0. -/
theorem getTerrainHeight_at_boundary_counterexample :
    (100 : ℚ) = 100 * 2 / 2 ∧
    getTerrainHeight 100 0 edgeImage 2 10 = 10 ∧
    getTerrainHeight 100 0 edgeImage 2 10 ≠ 0 := by
  have hp : getTerrainHeightPixel 100 0 edgeImage 2 = some (0, 0) := by
    norm_num [getTerrainHeightPixel, truncToNat, u32pred, edgeImage]
  have hv : getTerrainHeight 100 0 edgeImage 2 10 = 10 := by
    rw [getTerrainHeight, hp]; norm_num [edgeImage]
  exact ⟨by norm_num, hv, by rw [hv]; norm_num⟩

/-- C4 (amended): getTerrainHeight is deterministic (it is a pure function
of its arguments), and returns exactly 0 for every coordinate strictly
beyond the half-extent boundary, i.e. when worldX < -halfSize or
worldX > halfSize or worldZ < -halfSize or worldZ > halfSize with
halfSize = 100 * terrainScale / 2. -/
theorem getTerrainHeight_deterministic_zero_outside
    (wx wz s hs : ℚ) (img : Image)
    (h : wx < -(100 * s / 2) ∨ wx > 100 * s / 2 ∨ wz < -(100 * s / 2) ∨ wz > 100 * s / 2) :
    getTerrainHeight wx wz img s hs = getTerrainHeight wx wz img s hs ∧
    getTerrainHeight wx wz img s hs = 0 := by
  refine ⟨rfl, ?_⟩
  unfold getTerrainHeight getTerrainHeightPixel
  simp only []
  rw [if_pos h]

/-- Witness for the amended C4 at worldX = 101, terrainScale = 2. -/
theorem getTerrainHeight_deterministic_zero_outside_witness :
    ((101 : ℚ) < -(100 * 2 / 2) ∨ (101 : ℚ) > 100 * 2 / 2 ∨ (0 : ℚ) < -(100 * 2 / 2) ∨ (0 : ℚ) > 100 * 2 / 2) ∧
    getTerrainHeight 101 0 edgeImage 2 10 = 0 :=
  ⟨by norm_num, (getTerrainHeight_deterministic_zero_outside 101 0 2 10 edgeImage (by norm_num)).2⟩

/-- Scalar operations the C++ code takes from libm and glm: cos and sin, and
the square root used inside glm::normalize and glm::distance.  They are
parameters of the embedding; the theorems below hold for every
interpretation. -/
structure RealOps where
  cos : ℚ → ℚ
  sin : ℚ → ℚ
  sqrt : ℚ → ℚ

/-- Three-component vector of glm, over the rational scalars of the
embedding. -/
structure Vec3 where
  x : ℚ
  y : ℚ
  z : ℚ
deriving DecidableEq

/-- Componentwise addition, glm vec3 +. -/
def Vec3.add (a b : Vec3) : Vec3 := ⟨a.x + b.x, a.y + b.y, a.z + b.z⟩

/-- Scalar multiple, glm vec3 * float. -/
def Vec3.smul (k : ℚ) (a : Vec3) : Vec3 := ⟨k * a.x, k * a.y, k * a.z⟩

/-- glm::normalize, with the square root taken from ops. -/
def normalizeV (ops : RealOps) (v : Vec3) : Vec3 :=
  let len := ops.sqrt (v.x ^ 2 + v.y ^ 2 + v.z ^ 2)
  ⟨v.x / len, v.y / len, v.z / len⟩

/-- Vertex data pushed for segment i of generateCone, src/main.cpp lines
192-203: one base-rim vertex then one side vertex, 14 floats each
(position, normal, uv, tangent, bitangent). -/
def coneSegmentVertices (ops : RealOps) (radius height : ℚ) (segments i : ℕ) : List ℚ :=
  let angleStep := 2 * 3.14159 / (segments : ℚ)
  let angle := (i : ℚ) * angleStep
  let x := radius * ops.cos angle
  let z := radius * ops.sin angle
  let u := (x / radius + 1) * 0.5
  let v := (z / radius + 1) * 0.5
  let sideNormal := normalizeV ops ⟨x, radius / height, z⟩
  [x, 0, z, 0, -1, 0, u, v, 1, 0, 0, 0, 0, 1] ++
  [x, 0, z, sideNormal.x, sideNormal.y, sideNormal.z, (i : ℚ) / (segments : ℚ), 0, 1, 0, 0, 0, 1, 0]

/-- Flat vertex buffer of generateCone (src/main.cpp lines 184-203): base
center, apex, then the per-segment pairs for i = 0 .. segments-1. -/
def coneVertices (ops : RealOps) (radius height : ℚ) (segments : ℕ) : List ℚ :=
  [0, 0, 0, 0, -1, 0, 0.5, 0.5, 1, 0, 0, 0, 0, 1] ++
  [0, height, 0, 0, 1, 0, 0.5, 0.5, 1, 0, 0, 0, 0, 1] ++
  (List.range segments).flatMap (coneSegmentVertices ops radius height segments)

/-- Index buffer of generateCone (src/main.cpp lines 204-211): a base fan
around vertex 0 and a side fan around the apex vertex 1. -/
def coneIndices (segments : ℕ) : List ℕ :=
  (List.range segments).flatMap
    (fun i => [0, 2 + i * 2, 2 + ((i + 1) % segments) * 2]) ++
  (List.range segments).flatMap
    (fun i => [1, 2 + ((i + 1) % segments) * 2 + 1, 2 + i * 2 + 1])

/-- Vertex data pushed for segment i of generateCylinder, src/main.cpp lines
224-238: bottom rim, top rim, side bottom, side top, 14 floats each. -/
def cylinderSegmentVertices (ops : RealOps) (radius height : ℚ) (segments i : ℕ) : List ℚ :=
  let angleStep := 2 * 3.14159 / (segments : ℚ)
  let angle := (i : ℚ) * angleStep
  let x := radius * ops.cos angle
  let z := radius * ops.sin angle
  let u := (i : ℚ) / (segments : ℚ)
  let n := normalizeV ops ⟨x, 0, z⟩
  [x, 0, z, 0, -1, 0, u, 0, 1, 0, 0, 0, 0, 1] ++
  [x, height, z, 0, 1, 0, u, 1, 1, 0, 0, 0, 0, 1] ++
  [x, 0, z, n.x, n.y, n.z, u, 1, -z, 0, x, 0, 1, 0] ++
  [x, height, z, n.x, n.y, n.z, u, 0, -z, 0, x, 0, 1, 0]

/-- Flat vertex buffer of generateCylinder (src/main.cpp lines 217-238):
bottom center, top center, then four vertices per segment. -/
def cylinderVertices (ops : RealOps) (radius height : ℚ) (segments : ℕ) : List ℚ :=
  [0, 0, 0, 0, -1, 0, 0.5, 0.5, 1, 0, 0, 0, 0, 1] ++
  [0, height, 0, 0, 1, 0, 0.5, 0.5, 1, 0, 0, 0, 0, 1] ++
  (List.range segments).flatMap (cylinderSegmentVertices ops radius height segments)

/-- Index buffer of generateCylinder (src/main.cpp lines 240-251), with
baseOffset = 2: per segment a bottom-cap triangle, a top-cap triangle, and
two side triangles — 12 indices per segment. -/
def cylinderIndices (segments : ℕ) : List ℕ :=
  (List.range segments).flatMap (fun i =>
    let next := (i + 1) % segments
    let bl := 2 + i * 4 + 2
    let tl := 2 + i * 4 + 3
    let br := 2 + next * 4 + 2
    let tr := 2 + next * 4 + 3
    [0, 2 + i * 4, 2 + next * 4] ++
    [1, 2 + next * 4 + 1, 2 + i * 4 + 1] ++
    [bl, tr, tl] ++ [bl, br, tr])

/-- Length of a flatMap over List.range whose blocks all have length k. -/
theorem length_flatMap_range_const {β : Type} {f : ℕ → List β} (k : ℕ)
    (hf : ∀ i, (f i).length = k) (s : ℕ) :
    ((List.range s).flatMap f).length = k * s := by
  induction s with
  | zero => simp
  | succ n ih => rw [List.range_succ]; simp [ih, hf, Nat.mul_succ]

/-- C8: for every segments ≥ 3, generateCone produces exactly
2 + 2*segments vertices (the buffer holds 14 floats per vertex) and exactly
6*segments indices, and every index is below the vertex count. -/
theorem generateCone_counts (ops : RealOps) (r h : ℚ) (s : ℕ) (hs : 3 ≤ s) :
    (coneVertices ops r h s).length = 14 * (2 + 2 * s) ∧
    (coneIndices s).length = 6 * s ∧
    ∀ idx ∈ coneIndices s, idx < 2 + 2 * s := by
  have hpos : 0 < s := by omega
  refine ⟨?_, ?_, ?_⟩
  · rw [coneVertices]
    rw [List.append_assoc, List.length_append, List.length_append]
    rw [length_flatMap_range_const 28 (fun i => by simp [coneSegmentVertices]) s]
    simp; ring
  · rw [coneIndices, List.length_append]
    rw [length_flatMap_range_const 3 (fun i => by simp) s]
    rw [length_flatMap_range_const 3 (fun i => by simp) s]
    ring
  · intro idx hidx
    rw [coneIndices, List.mem_append] at hidx
    rcases hidx with hmem | hmem <;>
    · rw [List.mem_flatMap] at hmem
      obtain ⟨i, hi, hin⟩ := hmem
      rw [List.mem_range] at hi
      have hmod : (i + 1) % s < s := Nat.mod_lt _ hpos
      simp only [List.mem_cons, List.not_mem_nil, or_false] at hin
      rcases hin with rfl | rfl | rfl <;> omega

/-- Witness for C8 at the tree-branch call generateCone(6, 6, 32) of
src/main.cpp line 416 (any interpretation of the scalar ops; here the one
with cos = sin = 0 and sqrt = 0). -/
def zeroOps : RealOps := ⟨fun _ => 0, fun _ => 0, fun _ => 0⟩

theorem generateCone_counts_witness :
    (3 ≤ 32) ∧
    (coneVertices zeroOps 6 6 32).length = 14 * (2 + 2 * 32) ∧
    (coneIndices 32).length = 6 * 32 :=
  ⟨by norm_num, (generateCone_counts zeroOps 6 6 32 (by norm_num)).1,
    (generateCone_counts zeroOps 6 6 32 (by norm_num)).2.1⟩

/-- C3 counterexample: the claim asserts 8*segments indices for
generateCylinder, but at segments = 3 the code emits 36 indices
(12 per segment: two cap triangles and two side triangles), not 24. -/
theorem generateCylinder_index_count_counterexample :
    (cylinderIndices 3).length = 36 ∧ (cylinderIndices 3).length ≠ 8 * 3 := by
  have h : (cylinderIndices 3).length = 36 := by decide
  exact ⟨h, by rw [h]; norm_num⟩

/-- C3 (amended): for every segments ≥ 3, generateCylinder produces exactly
2 + 4*segments vertices (14 floats each) and exactly 12*segments indices,
and every index is below the vertex count. -/
theorem generateCylinder_counts (ops : RealOps) (r h : ℚ) (s : ℕ) (hs : 3 ≤ s) :
    (cylinderVertices ops r h s).length = 14 * (2 + 4 * s) ∧
    (cylinderIndices s).length = 12 * s ∧
    ∀ idx ∈ cylinderIndices s, idx < 2 + 4 * s := by
  have hpos : 0 < s := by omega
  refine ⟨?_, ?_, ?_⟩
  · rw [cylinderVertices]
    rw [List.append_assoc, List.length_append, List.length_append]
    rw [length_flatMap_range_const 56 (fun i => by simp [cylinderSegmentVertices]) s]
    simp; ring
  · rw [cylinderIndices]
    exact length_flatMap_range_const 12 (fun i => by simp) s
  · intro idx hidx
    rw [cylinderIndices, List.mem_flatMap] at hidx
    obtain ⟨i, hi, hin⟩ := hidx
    rw [List.mem_range] at hi
    have hmod : (i + 1) % s < s := Nat.mod_lt _ hpos
    simp only [List.append_assoc, List.cons_append, List.nil_append,
      List.mem_cons, List.not_mem_nil, or_false] at hin
    rcases hin with rfl | rfl | rfl | rfl | rfl | rfl | rfl | rfl | rfl | rfl | rfl | rfl <;> omega

/-- Witness for the amended C3 at the trunk call generateCylinder(1.5, 15, 32)
of src/main.cpp line 415. -/
theorem generateCylinder_counts_witness :
    (3 ≤ 32) ∧
    (cylinderVertices zeroOps 1.5 15 32).length = 14 * (2 + 4 * 32) ∧
    (cylinderIndices 32).length = 12 * 32 :=
  ⟨by norm_num, (generateCylinder_counts zeroOps 1.5 15 32 (by norm_num)).1,
    (generateCylinder_counts zeroOps 1.5 15 32 (by norm_num)).2.1⟩

/-- C5: the claim states that generateCone and generateCylinder fail fast on
segments = 0.  Evaluating the code at that input shows no failure: the angle
step is a float division by zero, the per-segment loops do not run, and both
functions proceed to build and upload a degenerate mesh holding exactly the
two center vertices (28 floats) and an empty index list. -/
theorem generator_zero_segments_builds_mesh :
    (coneVertices zeroOps 3.5 3 0).length = 28 ∧ coneIndices 0 = [] ∧
    (cylinderVertices zeroOps 1.5 15 0).length = 28 ∧ cylinderIndices 0 = [] := by
  refine ⟨?_, rfl, ?_, rfl⟩ <;> simp [coneVertices, cylinderVertices]

/-- Falling parcel, src/main.cpp lines 308-314.  The Mesh member is a GPU
handle with no simulation state and is omitted. -/
structure Parcel where
  position : Vec3
  velocity : Vec3 := ⟨0, -9.8, 0⟩
  radius : ℚ := 0.5
  active : Bool := true
deriving DecidableEq

/-- Stationary house target, src/main.cpp lines 316-322.  The two Mesh
members are GPU handles and are omitted. -/
structure Target where
  position : Vec3
  radius : ℚ := 2.5
  active : Bool := true
deriving DecidableEq

/-- glm::distance — Euclidean distance, square root taken from ops. -/
def dist (ops : RealOps) (a b : Vec3) : ℚ :=
  ops.sqrt ((a.x - b.x) ^ 2 + (a.y - b.y) ^ 2 + (a.z - b.z) ^ 2)

/-- Hit-radius test of src/main.cpp line 503 for a parcel already moved to
its integrated position. -/
def hitsTarget (ops : RealOps) (p : Parcel) (t : Target) : Bool :=
  decide (dist ops p.position t.position < p.radius + t.radius)

/-- Inner target loop of src/main.cpp lines 501-506 for one parcel p
(already integrated): skip inactive targets; on the first target within the
hit radius, deactivate it, bump the score, and break.  Returns the updated
target list, the updated score, and whether the parcel hit. -/
def hitTest (ops : RealOps) (p : Parcel) (score : ℕ) :
    List Target → List Target × ℕ × Bool
  | [] => ([], score, false)
  | t :: ts =>
    if t.active && hitsTarget ops p t then
      ({ t with active := false } :: ts, score + 1, true)
    else
      let r := hitTest ops p score ts
      (t :: r.1, r.2.1, r.2.2)

/-- One iteration of the parcel update loop, src/main.cpp lines 496-507:
inactive parcels are skipped untouched; otherwise the position is
integrated by the constant velocity, the terrain is queried at the new
(x, z), and the parcel either lands (deactivate, no hit testing) or runs
the target loop. -/
def tickParcel (ops : RealOps) (img : Image) (terrainScale terrainHeightScale dt : ℚ)
    (p : Parcel) (targets : List Target) (score : ℕ) : Parcel × List Target × ℕ :=
  if p.active = false then (p, targets, score)
  else
    let pos := p.position.add (Vec3.smul dt p.velocity)
    let terrainH := getTerrainHeight pos.x pos.z img terrainScale terrainHeightScale
    if pos.y ≤ terrainH then ({ p with position := pos, active := false }, targets, score)
    else
      let r := hitTest ops { p with position := pos } score targets
      ({ p with position := pos, active := if r.2.2 then false else p.active }, r.1, r.2.1)

/-- Whole parcel loop of one frame (for (auto& p : parcels), src/main.cpp
line 496), threading the shared target list and score left to right. -/
def stepSim (ops : RealOps) (img : Image) (terrainScale terrainHeightScale dt : ℚ) :
    List Parcel → List Target → ℕ → List Parcel × List Target × ℕ
  | [], targets, score => ([], targets, score)
  | p :: ps, targets, score =>
    let r := tickParcel ops img terrainScale terrainHeightScale dt p targets score
    let rest := stepSim ops img terrainScale terrainHeightScale dt ps r.2.1 r.2.2
    (r.1 :: rest.1, rest.2.1, rest.2.2)

/-- Several consecutive frames of the parcel loop with a constant frame
time dt. -/
def runSim (ops : RealOps) (img : Image) (terrainScale terrainHeightScale dt : ℚ) :
    ℕ → List Parcel → List Target → ℕ → List Parcel × List Target × ℕ
  | 0, ps, ts, score => (ps, ts, score)
  | n + 1, ps, ts, score =>
    let r := stepSim ops img terrainScale terrainHeightScale dt ps ts score
    runSim ops img terrainScale terrainHeightScale dt n r.1 r.2.1 r.2.2

/-- Target setup of src/main.cpp lines 458-464: five houses on a diagonal,
each seated at terrain height plus 2, radius 2.5, active. -/
def initTargets (img : Image) (terrainScale terrainHeightScale : ℚ) : List Target :=
  (List.range 5).map (fun i =>
    let tx := (i : ℚ) * 15 - 30
    let tz := (i : ℚ) * 10 - 20
    let ty := getTerrainHeight tx tz img terrainScale terrainHeightScale
    { position := ⟨tx, ty + 2, tz⟩ })

/-- Number of targets whose active flag is false. -/
def countInactive (ts : List Target) : ℕ := ts.countP (fun t => !t.active)

/-- Helper: the tick skips a parcel whose active flag is down. -/
theorem tickParcel_skip (ops : RealOps) (img : Image)
    (s hs dt : ℚ) (p : Parcel) (ts : List Target) (sc : ℕ)
    (h : p.active = false) :
    tickParcel ops img s hs dt p ts sc = (p, ts, sc) := by
  simp [tickParcel, h]

/-- C10: a parcel that is inactive at the start of the tick is left
completely untouched — same position, velocity and active flag — and the
target list and score are untouched by it as well. -/
theorem tickParcel_inactive_untouched (ops : RealOps) (img : Image)
    (s hs dt : ℚ) (p : Parcel) (ts : List Target) (sc : ℕ)
    (h : p.active = false) :
    tickParcel ops img s hs dt p ts sc = (p, ts, sc) :=
  tickParcel_skip ops img s hs dt p ts sc h

/-- Witness for C10: a parcel that already landed is untouched by a tick. -/
theorem tickParcel_inactive_untouched_witness :
    (Parcel.active ⟨⟨0, 0, 0⟩, ⟨0, -9.8, 0⟩, 0.5, false⟩ = false) ∧
    tickParcel zeroOps edgeImage 2 10 1 ⟨⟨0, 0, 0⟩, ⟨0, -9.8, 0⟩, 0.5, false⟩ [] 0 =
      (⟨⟨0, 0, 0⟩, ⟨0, -9.8, 0⟩, 0.5, false⟩, [], 0) :=
  ⟨rfl, tickParcel_inactive_untouched zeroOps edgeImage 2 10 1 _ [] 0 rfl⟩

/-- Helper: when no still-active target is within the hit radius, the
target loop changes nothing and reports no hit. -/
theorem hitTest_no_match (ops : RealOps) (p : Parcel) (sc : ℕ) (ts : List Target)
    (h : ∀ t ∈ ts, t.active = true → hitsTarget ops p t = false) :
    hitTest ops p sc ts = (ts, sc, false) := by
  induction ts with
  | nil => rfl
  | cons t ts ih =>
    have hcond : (t.active && hitsTarget ops p t) = false := by
      cases hact : t.active with
      | false => simp
      | true => simp [h t (by simp) hact]
    rw [hitTest, if_neg (by simp [hcond])]
    rw [ih (fun t' ht' => h t' (by simp [ht']))]

/-- C6: an active parcel with the fixed gravity velocity (0, -9.8, 0) and
zero lateral velocity lands — is deactivated at its integrated position with
targets and score untouched, hence no hit testing — precisely in a tick
whose integrated position satisfies pos.y ≤ terrain height at (pos.x,
pos.z); in a tick where the integrated position is still above the terrain
(and no target is in hit range) it stays active, so it never lands
earlier. -/
theorem tickParcel_lands_iff_on_ground (ops : RealOps) (img : Image)
    (s hs dt : ℚ) (p : Parcel) (ts : List Target) (sc : ℕ) (pos : Vec3)
    (hact : p.active = true) (hvel : p.velocity = ⟨0, -9.8, 0⟩)
    (hpos : pos = p.position.add (Vec3.smul dt p.velocity)) :
    (pos.y ≤ getTerrainHeight pos.x pos.z img s hs →
      tickParcel ops img s hs dt p ts sc =
        ({ p with position := pos, active := false }, ts, sc)) ∧
    (getTerrainHeight pos.x pos.z img s hs < pos.y →
      (∀ t ∈ ts, t.active = true →
          hitsTarget ops { p with position := pos } t = false) →
      tickParcel ops img s hs dt p ts sc = ({ p with position := pos }, ts, sc)) := by
  constructor
  · intro hground
    rw [tickParcel, if_neg (by simp [hact]), ← hpos, if_pos hground]
  · intro hair hmiss
    rw [tickParcel, if_neg (by simp [hact]), ← hpos, if_neg (not_le.mpr hair)]
    rw [hitTest_no_match ops _ sc ts hmiss]
    simp [hact]

/-- Witness for C6: a parcel one unit above flat terrain at height 0 with
dt = 1 integrates to y = -8.8 ≤ 0 and lands, leaving a (nonempty) target
list and the score untouched. -/
theorem tickParcel_lands_iff_on_ground_witness :
    (Parcel.active ⟨⟨0, 1, 0⟩, ⟨0, -9.8, 0⟩, 0.5, true⟩ = true) ∧
    (Parcel.velocity ⟨⟨0, 1, 0⟩, ⟨0, -9.8, 0⟩, 0.5, true⟩ = ⟨0, -9.8, 0⟩) ∧
    tickParcel zeroOps edgeImage 2 10 1 ⟨⟨0, 1, 0⟩, ⟨0, -9.8, 0⟩, 0.5, true⟩
        [⟨⟨0, 1, 0⟩, 2.5, true⟩] 0 =
      (⟨⟨0, -8.8, 0⟩, ⟨0, -9.8, 0⟩, 0.5, false⟩, [⟨⟨0, 1, 0⟩, 2.5, true⟩], 0) := by
  refine ⟨rfl, rfl, ?_⟩
  have hpix : getTerrainHeight 0 0 edgeImage 2 10 = 10 * (255 / 255) := by
    have hp : getTerrainHeightPixel 0 0 edgeImage 2 = some (0, 0) := by
      norm_num [getTerrainHeightPixel, truncToNat, u32pred, edgeImage]
    rw [getTerrainHeight, hp]; norm_num [edgeImage]
  have h := (tickParcel_lands_iff_on_ground zeroOps edgeImage 2 10 1
      ⟨⟨0, 1, 0⟩, ⟨0, -9.8, 0⟩, 0.5, true⟩ [⟨⟨0, 1, 0⟩, 2.5, true⟩] 0
      ⟨0, -8.8, 0⟩ rfl rfl (by norm_num [Vec3.add, Vec3.smul])).1
    (by rw [show Vec3.y ⟨0, -8.8, 0⟩ = -8.8 from rfl, hpix]; norm_num)
  rw [h]

/-- C7: an active airborne parcel whose integrated position is within hit
radius of both of two active targets deactivates exactly the first one in
iteration order, leaves the second untouched, increments the score by
exactly one, and is itself deactivated. -/
theorem tickParcel_first_match_wins (ops : RealOps) (img : Image)
    (s hs dt : ℚ) (p : Parcel) (t1 t2 : Target) (sc : ℕ) (pos : Vec3)
    (hact : p.active = true)
    (hpos : pos = p.position.add (Vec3.smul dt p.velocity))
    (hair : getTerrainHeight pos.x pos.z img s hs < pos.y)
    (h1 : t1.active = true) (h2 : t2.active = true)
    (hh1 : hitsTarget ops { p with position := pos } t1 = true)
    (hh2 : hitsTarget ops { p with position := pos } t2 = true) :
    tickParcel ops img s hs dt p [t1, t2] sc =
      ({ p with position := pos, active := false },
       [{ t1 with active := false }, t2], sc + 1) := by
  rw [tickParcel, if_neg (by simp [hact]), ← hpos, if_neg (not_le.mpr hair)]
  rw [hitTest, if_pos (by simp [h1, hh1])]
  simp

/-- Witness for C7: a parcel falling to (2, 1, 0) is within radius 3 of both
the target at (0, 1, 0) and the target at (4, 1, 0); only the first is
destroyed.  The sqrt interpretation sqrtFourToTwo agrees with the real
square root on the only argument evaluated (4 ↦ 2). -/
def sqrtFourToTwo : RealOps := ⟨fun _ => 0, fun _ => 0, fun q => if q = 4 then 2 else 0⟩

/-- Flat image: ground height 0 everywhere. -/
def flatImage : Image := ⟨1, 1, fun _ _ => 0⟩

theorem tickParcel_first_match_wins_witness :
    (Parcel.active ⟨⟨2, 10.8, 0⟩, ⟨0, -9.8, 0⟩, 0.5, true⟩ = true) ∧
    (Target.active ⟨⟨0, 1, 0⟩, 2.5, true⟩ = true) ∧
    (Target.active ⟨⟨4, 1, 0⟩, 2.5, true⟩ = true) ∧
    tickParcel sqrtFourToTwo flatImage 2 10 1 ⟨⟨2, 10.8, 0⟩, ⟨0, -9.8, 0⟩, 0.5, true⟩
        [⟨⟨0, 1, 0⟩, 2.5, true⟩, ⟨⟨4, 1, 0⟩, 2.5, true⟩] 0 =
      (⟨⟨2, 1, 0⟩, ⟨0, -9.8, 0⟩, 0.5, false⟩,
       [⟨⟨0, 1, 0⟩, 2.5, false⟩, ⟨⟨4, 1, 0⟩, 2.5, true⟩], 1) := by
  have hflat : getTerrainHeight 2 0 flatImage 2 10 = 0 := by
    have hp : getTerrainHeightPixel 2 0 flatImage 2 = some (0, 0) := by
      norm_num [getTerrainHeightPixel, truncToNat, u32pred, flatImage]
    rw [getTerrainHeight, hp]; norm_num [flatImage]
  refine ⟨rfl, rfl, rfl, ?_⟩
  have h := tickParcel_first_match_wins sqrtFourToTwo flatImage 2 10 1
      ⟨⟨2, 10.8, 0⟩, ⟨0, -9.8, 0⟩, 0.5, true⟩ ⟨⟨0, 1, 0⟩, 2.5, true⟩ ⟨⟨4, 1, 0⟩, 2.5, true⟩ 0
      ⟨2, 1, 0⟩ rfl (by norm_num [Vec3.add, Vec3.smul])
      (by rw [show Vec3.x ⟨2, 1, 0⟩ = 2 from rfl, show Vec3.z ⟨2, 1, 0⟩ = 0 from rfl, hflat]; norm_num)
      rfl rfl
      (by norm_num [hitsTarget, dist, sqrtFourToTwo])
      (by norm_num [hitsTarget, dist, sqrtFourToTwo])
  rw [h]

/-- Helper: the target loop bumps the score by exactly the number of
newly deactivated targets (zero or one), preserves the list length, and
never lowers the score. -/
theorem hitTest_count (ops : RealOps) (p : Parcel) (sc : ℕ) (ts : List Target) :
    (hitTest ops p sc ts).2.1 + countInactive ts =
      sc + countInactive (hitTest ops p sc ts).1 ∧
    sc ≤ (hitTest ops p sc ts).2.1 ∧
    (hitTest ops p sc ts).1.length = ts.length := by
  induction ts with
  | nil => simp [hitTest]
  | cons t ts ih =>
    by_cases h : (t.active && hitsTarget ops p t) = true
    · rw [hitTest, if_pos h]
      have htact : t.active = true := by
        cases hact : t.active with
        | false => rw [hact] at h; simp at h
        | true => rfl
      simp [countInactive, htact]
      omega
    · rw [hitTest, if_neg h]
      simp only [countInactive, List.countP_cons] at *
      rcases ih with ⟨ih1, ih2, ih3⟩
      refine ⟨by omega, ih2, by simp [ih3]⟩

/-- Helper: one parcel tick bumps the score by exactly the number of newly
deactivated targets, never lowers the score, and preserves the target list
length. -/
theorem tickParcel_count (ops : RealOps) (img : Image) (s hs dt : ℚ)
    (p : Parcel) (ts : List Target) (sc : ℕ) :
    (tickParcel ops img s hs dt p ts sc).2.2 + countInactive ts =
      sc + countInactive (tickParcel ops img s hs dt p ts sc).2.1 ∧
    sc ≤ (tickParcel ops img s hs dt p ts sc).2.2 ∧
    (tickParcel ops img s hs dt p ts sc).2.1.length = ts.length := by
  rw [tickParcel]
  by_cases hact : p.active = false
  · rw [if_pos hact]; simp
  · rw [if_neg hact]
    by_cases hg : (p.position.add (Vec3.smul dt p.velocity)).y ≤
        getTerrainHeight (p.position.add (Vec3.smul dt p.velocity)).x
          (p.position.add (Vec3.smul dt p.velocity)).z img s hs
    · rw [if_pos hg]; simp
    · rw [if_neg hg]
      exact hitTest_count ops _ sc ts

/-- Unfolding of the target-list component of stepSim on a cons. -/
theorem stepSim_cons_targets (ops : RealOps) (img : Image) (s hs dt : ℚ)
    (p : Parcel) (ps : List Parcel) (ts : List Target) (sc : ℕ) :
    (stepSim ops img s hs dt (p :: ps) ts sc).2.1 =
      (stepSim ops img s hs dt ps (tickParcel ops img s hs dt p ts sc).2.1
        (tickParcel ops img s hs dt p ts sc).2.2).2.1 := rfl

/-- Unfolding of the score component of stepSim on a cons. -/
theorem stepSim_cons_score (ops : RealOps) (img : Image) (s hs dt : ℚ)
    (p : Parcel) (ps : List Parcel) (ts : List Target) (sc : ℕ) :
    (stepSim ops img s hs dt (p :: ps) ts sc).2.2 =
      (stepSim ops img s hs dt ps (tickParcel ops img s hs dt p ts sc).2.1
        (tickParcel ops img s hs dt p ts sc).2.2).2.2 := rfl

/-- Unfolding of the parcel-list component of stepSim on a cons. -/
theorem stepSim_cons_parcels (ops : RealOps) (img : Image) (s hs dt : ℚ)
    (p : Parcel) (ps : List Parcel) (ts : List Target) (sc : ℕ) :
    (stepSim ops img s hs dt (p :: ps) ts sc).1 =
      (tickParcel ops img s hs dt p ts sc).1 ::
      (stepSim ops img s hs dt ps (tickParcel ops img s hs dt p ts sc).2.1
        (tickParcel ops img s hs dt p ts sc).2.2).1 := rfl

/-- C9: if the score equals the number of deactivated targets before the
frame — as it does at startup, where the score is 0 and the five targets of
initTargets are all active — then it still does after the whole parcel loop
of the frame; moreover the score never decreases during the frame, never
exceeds the target count, and the target count is preserved. -/
theorem stepSim_score_counts_inactive (ops : RealOps) (img : Image)
    (s hs dt : ℚ) (ps : List Parcel) (ts : List Target) (sc : ℕ)
    (hinv : sc = countInactive ts) :
    (stepSim ops img s hs dt ps ts sc).2.2 =
      countInactive (stepSim ops img s hs dt ps ts sc).2.1 ∧
    sc ≤ (stepSim ops img s hs dt ps ts sc).2.2 ∧
    (stepSim ops img s hs dt ps ts sc).2.2 ≤ ts.length ∧
    (stepSim ops img s hs dt ps ts sc).2.1.length = ts.length := by
  induction ps generalizing ts sc with
  | nil =>
    refine ⟨hinv, le_refl _, ?_, rfl⟩
    rw [stepSim]
    simp only [hinv, countInactive]
    exact List.countP_le_length _
  | cons p ps ih =>
    obtain ⟨h1, h2, h3⟩ := tickParcel_count ops img s hs dt p ts sc
    obtain ⟨g1, g2, g3, g4⟩ := ih (tickParcel ops img s hs dt p ts sc).2.1
      (tickParcel ops img s hs dt p ts sc).2.2 (by omega)
    rw [stepSim_cons_targets, stepSim_cons_score]
    exact ⟨g1, by omega, by omega, by omega⟩

/-- Witness for C9: the invariant holds for the initial state — score 0 and
the five freshly created targets all active — over flat terrain, with one
active parcel about to destroy the first target in its path. -/
theorem stepSim_score_counts_inactive_witness :
    (0 = countInactive (initTargets flatImage 2 10)) ∧
    ((stepSim sqrtFourToTwo flatImage 2 10 1 [⟨⟨2, 10.8, 0⟩, ⟨0, -9.8, 0⟩, 0.5, true⟩]
        (initTargets flatImage 2 10) 0).2.2 =
      countInactive (stepSim sqrtFourToTwo flatImage 2 10 1
        [⟨⟨2, 10.8, 0⟩, ⟨0, -9.8, 0⟩, 0.5, true⟩] (initTargets flatImage 2 10) 0).2.1 ∧
    0 ≤ (stepSim sqrtFourToTwo flatImage 2 10 1 [⟨⟨2, 10.8, 0⟩, ⟨0, -9.8, 0⟩, 0.5, true⟩]
        (initTargets flatImage 2 10) 0).2.2 ∧
    (stepSim sqrtFourToTwo flatImage 2 10 1 [⟨⟨2, 10.8, 0⟩, ⟨0, -9.8, 0⟩, 0.5, true⟩]
        (initTargets flatImage 2 10) 0).2.2 ≤ (initTargets flatImage 2 10).length ∧
    (stepSim sqrtFourToTwo flatImage 2 10 1 [⟨⟨2, 10.8, 0⟩, ⟨0, -9.8, 0⟩, 0.5, true⟩]
        (initTargets flatImage 2 10) 0).2.1.length = (initTargets flatImage 2 10).length) := by
  have hall : countInactive (initTargets flatImage 2 10) = 0 := by
    simp [countInactive, initTargets, List.range_succ]
  exact ⟨hall.symm, stepSim_score_counts_inactive sqrtFourToTwo flatImage 2 10 1 _ _ 0 hall.symm⟩

/-- Parcel moved to the position it integrates to in a tick of length dt
(src/main.cpp line 498). -/
def movedParcel (dt : ℚ) (p : Parcel) : Parcel :=
  { p with position := p.position.add (Vec3.smul dt p.velocity) }

/-- Ground-collision condition of src/main.cpp line 500 for the integrated
position of parcel p. -/
def landsThisTick (img : Image) (s hs dt : ℚ) (p : Parcel) : Prop :=
  (movedParcel dt p).position.y ≤
    getTerrainHeight (movedParcel dt p).position.x (movedParcel dt p).position.z img s hs

instance (img : Image) (s hs dt : ℚ) (p : Parcel) :
    Decidable (landsThisTick img s hs dt p) := by
  unfold landsThisTick; infer_instance

/-- Index of the first still-active target within hit radius of the
(already integrated) parcel p — the target the loop of src/main.cpp lines
501-506 claims, if any. -/
def claimedIndex (ops : RealOps) (p : Parcel) : List Target → Option ℕ
  | [] => none
  | t :: ts =>
    if t.active && hitsTarget ops p t then some 0
    else (claimedIndex ops p ts).map Nat.succ

/-- Copy of a target list with the target at position i (if any)
deactivated. -/
def deactivateAt : List Target → ℕ → List Target
  | [], _ => []
  | t :: ts, 0 => { t with active := false } :: ts
  | t :: ts, n + 1 => t :: deactivateAt ts n

/-- The hit-radius test ignores the active flag of the target. -/
theorem hitsTarget_deactivated (ops : RealOps) (p : Parcel) (t : Target) :
    hitsTarget ops p { t with active := false } = hitsTarget ops p t := rfl

/-- The target loop in terms of the claimed index: no claim leaves
everything unchanged, a claim at i deactivates exactly position i and bumps
the score once. -/
theorem hitTest_eq_claimedIndex (ops : RealOps) (p : Parcel) (sc : ℕ) (ts : List Target) :
    hitTest ops p sc ts =
      match claimedIndex ops p ts with
      | none => (ts, sc, false)
      | some i => (deactivateAt ts i, sc + 1, true) := by
  induction ts with
  | nil => rfl
  | cons t ts ih =>
    by_cases h : (t.active && hitsTarget ops p t) = true
    · rw [hitTest, if_pos h, claimedIndex, if_pos h]
      simp [deactivateAt]
    · rw [hitTest, if_neg h, claimedIndex, if_neg h, ih]
      cases claimedIndex ops p ts <;> simp [deactivateAt]

/-- A claimed index points at a target of the list that is active and
within hit radius. -/
theorem claimedIndex_some (ops : RealOps) (p : Parcel) (ts : List Target) (i : ℕ)
    (h : claimedIndex ops p ts = some i) :
    ∃ t, ts[i]? = some t ∧ t.active = true ∧ hitsTarget ops p t = true := by
  induction ts generalizing i with
  | nil => simp [claimedIndex] at h
  | cons t ts ih =>
    rw [claimedIndex] at h
    by_cases hc : (t.active && hitsTarget ops p t) = true
    · rw [if_pos hc] at h
      obtain rfl : (0 : ℕ) = i := by simpa using h
      exact ⟨t, by simp, ((Bool.and_eq_true _ _).mp hc).1, ((Bool.and_eq_true _ _).mp hc).2⟩
    · rw [if_neg hc] at h
      cases hj : claimedIndex ops p ts with
      | none => rw [hj] at h; simp at h
      | some j =>
        rw [hj, Option.map_some'] at h
        obtain rfl : j + 1 = i := by simpa using h
        obtain ⟨u, hu, hua, huh⟩ := ih j hj
        exact ⟨u, by simpa using hu, hua, huh⟩

/-- Deactivating a target the parcel does not reach leaves the claimed
index unchanged. -/
theorem claimedIndex_deactivateAt (ops : RealOps) (q : Parcel) (ts : List Target) (j : ℕ)
    (h : ∀ t, ts[j]? = some t → hitsTarget ops q t = false) :
    claimedIndex ops q (deactivateAt ts j) = claimedIndex ops q ts := by
  induction ts generalizing j with
  | nil => rfl
  | cons t ts ih =>
    cases j with
    | zero =>
      have hq : hitsTarget ops q t = false := h t (by simp)
      have hq' : hitsTarget ops q { t with active := false } = false := by
        rw [hitsTarget_deactivated]; exact hq
      rw [deactivateAt]
      rw [claimedIndex, claimedIndex]
      simp [hq, hq']
    | succ n =>
      rw [deactivateAt, claimedIndex, claimedIndex,
        ih n (fun u hu => h u (by simpa using hu))]

/-- Deactivations at two positions commute. -/
theorem deactivateAt_comm (ts : List Target) (i j : ℕ) :
    deactivateAt (deactivateAt ts i) j = deactivateAt (deactivateAt ts j) i := by
  induction ts generalizing i j with
  | nil => rfl
  | cons t ts ih =>
    cases i with
    | zero =>
      cases j with
      | zero => rfl
      | succ m => rfl
    | succ n =>
      cases j with
      | zero => rfl
      | succ m => rw [deactivateAt, deactivateAt, deactivateAt, deactivateAt, ih]

/-- Members of a deactivated list are members of the original list, up to a
cleared active flag. -/
theorem mem_deactivateAt {t' : Target} {ts : List Target} {i : ℕ}
    (h : t' ∈ deactivateAt ts i) :
    t' ∈ ts ∨ ∃ t ∈ ts, t' = { t with active := false } := by
  induction ts generalizing i with
  | nil => rw [deactivateAt] at h; simp at h
  | cons t ts ih =>
    cases i with
    | zero =>
      rw [deactivateAt] at h
      rcases List.mem_cons.mp h with rfl | hmem
      · exact Or.inr ⟨t, by simp, rfl⟩
      · exact Or.inl (by simp [hmem])
    | succ n =>
      rw [deactivateAt] at h
      rcases List.mem_cons.mp h with rfl | hmem
      · exact Or.inl (by simp)
      · rcases ih hmem with h1 | ⟨u, hu, rfl⟩
        · exact Or.inl (by simp [h1])
        · exact Or.inr ⟨u, by simp [hu], rfl⟩

/-- One parcel tick, phrased through the claimed index. -/
theorem tickParcel_eq (ops : RealOps) (img : Image) (s hs dt : ℚ)
    (p : Parcel) (ts : List Target) (sc : ℕ) :
    tickParcel ops img s hs dt p ts sc =
      if p.active = false then (p, ts, sc)
      else if landsThisTick img s hs dt p then
        ({ movedParcel dt p with active := false }, ts, sc)
      else
        match claimedIndex ops (movedParcel dt p) ts with
        | none => (movedParcel dt p, ts, sc)
        | some i =>
            ({ movedParcel dt p with active := false }, deactivateAt ts i, sc + 1) := by
  by_cases hact : p.active = false
  · rw [tickParcel_skip ops img s hs dt p ts sc hact, if_pos hact]
  · rw [tickParcel, if_neg hact, if_neg hact]
    simp only [landsThisTick, movedParcel]
    by_cases hg : (p.position.add (Vec3.smul dt p.velocity)).y ≤
        getTerrainHeight (p.position.add (Vec3.smul dt p.velocity)).x
          (p.position.add (Vec3.smul dt p.velocity)).z img s hs
    · rw [if_pos hg, if_pos hg]
    · rw [if_neg hg, if_neg hg, hitTest_eq_claimedIndex]
      have hb : p.active = true := by revert hact; cases p.active <;> simp
      cases claimedIndex ops { p with position := p.position.add (Vec3.smul dt p.velocity) } ts <;>
        simp [hb]

/-- Two parcels claim no common target this tick: when both are active, no
target of the list is within hit radius of both integrated positions. -/
def noSharedTarget (ops : RealOps) (dt : ℚ) (ts : List Target) (a b : Parcel) : Prop :=
  a.active = true → b.active = true →
    ∀ t ∈ ts, ¬(hitsTarget ops (movedParcel dt a) t = true ∧
                hitsTarget ops (movedParcel dt b) t = true)

/-- The no-shared-target relation is symmetric. -/
theorem noSharedTarget_symm {ops : RealOps} {dt : ℚ} {ts : List Target} {a b : Parcel}
    (h : noSharedTarget ops dt ts a b) : noSharedTarget ops dt ts b a := by
  intro hb ha t ht hcon
  exact h ha hb t ht ⟨hcon.2, hcon.1⟩

/-- A tick either leaves the target list alone or deactivates one
position. -/
theorem tickParcel_targets_cases (ops : RealOps) (img : Image) (s hs dt : ℚ)
    (p : Parcel) (ts : List Target) (sc : ℕ) :
    (tickParcel ops img s hs dt p ts sc).2.1 = ts ∨
    ∃ i, (tickParcel ops img s hs dt p ts sc).2.1 = deactivateAt ts i := by
  rw [tickParcel_eq]
  by_cases h1 : p.active = false
  · rw [if_pos h1]; exact Or.inl rfl
  · rw [if_neg h1]
    by_cases h2 : landsThisTick img s hs dt p
    · rw [if_pos h2]; exact Or.inl rfl
    · rw [if_neg h2]
      cases claimedIndex ops (movedParcel dt p) ts with
      | none => exact Or.inl rfl
      | some i => exact Or.inr ⟨i, rfl⟩

/-- Ticking any parcel cannot create a shared target between two others:
it only clears active flags, and the hit test ignores them. -/
theorem noSharedTarget_after_tick (ops : RealOps) (img : Image) (s hs dt : ℚ)
    (p : Parcel) (ts : List Target) (sc : ℕ) {a b : Parcel}
    (h : noSharedTarget ops dt ts a b) :
    noSharedTarget ops dt (tickParcel ops img s hs dt p ts sc).2.1 a b := by
  intro ha hb t ht
  rcases tickParcel_targets_cases ops img s hs dt p ts sc with hcase | ⟨i, hcase⟩
  · rw [hcase] at ht; exact h ha hb t ht
  · rw [hcase] at ht
    rcases mem_deactivateAt ht with hmem | ⟨u, hu, rfl⟩
    · exact h ha hb t hmem
    · intro hcon
      rcases hcon with ⟨h1, h2⟩
      rw [hitsTarget_deactivated] at h1 h2
      exact h ha hb u hu ⟨h1, h2⟩

/-- Swapping the order of two parcels that claim no common target changes
neither their individual outcomes nor the resulting target list and
score. -/
theorem tickParcel_comm (ops : RealOps) (img : Image) (s hs dt : ℚ)
    (a b : Parcel) (ts : List Target) (sc : ℕ)
    (hdisj : noSharedTarget ops dt ts a b) :
    (tickParcel ops img s hs dt a ts sc).1 =
      (tickParcel ops img s hs dt a (tickParcel ops img s hs dt b ts sc).2.1
        (tickParcel ops img s hs dt b ts sc).2.2).1 ∧
    (tickParcel ops img s hs dt b (tickParcel ops img s hs dt a ts sc).2.1
        (tickParcel ops img s hs dt a ts sc).2.2).1 =
      (tickParcel ops img s hs dt b ts sc).1 ∧
    (tickParcel ops img s hs dt b (tickParcel ops img s hs dt a ts sc).2.1
        (tickParcel ops img s hs dt a ts sc).2.2).2 =
      (tickParcel ops img s hs dt a (tickParcel ops img s hs dt b ts sc).2.1
        (tickParcel ops img s hs dt b ts sc).2.2).2 := by
  by_cases ha : a.active = false
  · rw [tickParcel_skip ops img s hs dt a ts sc ha]
    refine ⟨?_, rfl, ?_⟩
    · rw [tickParcel_skip ops img s hs dt a _ _ ha]
    · rw [tickParcel_skip ops img s hs dt a _ _ ha]
  · have ha' : a.active = true := by revert ha; cases a.active <;> simp
    by_cases hb : b.active = false
    · rw [tickParcel_skip ops img s hs dt b ts sc hb]
      rw [tickParcel_skip ops img s hs dt b _ _ hb]
      exact ⟨rfl, rfl, rfl⟩
    · have hb' : b.active = true := by revert hb; cases b.active <;> simp
      have hdj := hdisj ha' hb'
      have hAnotB : ∀ j, claimedIndex ops (movedParcel dt a) ts = some j →
          ∀ t, ts[j]? = some t → hitsTarget ops (movedParcel dt b) t = false := by
        intro j hj t ht
        obtain ⟨u, hu, hua, huh⟩ := claimedIndex_some ops _ ts j hj
        rw [ht] at hu
        obtain rfl : t = u := by simpa using hu
        cases hbt : hitsTarget ops (movedParcel dt b) t with
        | false => rfl
        | true => exact absurd ⟨huh, hbt⟩ (hdj t (List.getElem?_mem ht))
      have hBnotA : ∀ j, claimedIndex ops (movedParcel dt b) ts = some j →
          ∀ t, ts[j]? = some t → hitsTarget ops (movedParcel dt a) t = false := by
        intro j hj t ht
        obtain ⟨u, hu, hua, huh⟩ := claimedIndex_some ops _ ts j hj
        rw [ht] at hu
        obtain rfl : t = u := by simpa using hu
        cases hat : hitsTarget ops (movedParcel dt a) t with
        | false => rfl
        | true => exact absurd ⟨hat, huh⟩ (hdj t (List.getElem?_mem ht))
      by_cases gb : landsThisTick img s hs dt b
      · have hbeq : ∀ X Y, tickParcel ops img s hs dt b X Y =
            ({ movedParcel dt b with active := false }, X, Y) := by
          intro X Y; rw [tickParcel_eq, if_neg hb, if_pos gb]
        rw [hbeq ts sc,
          hbeq (tickParcel ops img s hs dt a ts sc).2.1 (tickParcel ops img s hs dt a ts sc).2.2]
        exact ⟨rfl, rfl, rfl⟩
      · by_cases ga : landsThisTick img s hs dt a
        · have haeq : ∀ X Y, tickParcel ops img s hs dt a X Y =
              ({ movedParcel dt a with active := false }, X, Y) := by
            intro X Y; rw [tickParcel_eq, if_neg ha, if_pos ga]
          rw [haeq ts sc,
            haeq (tickParcel ops img s hs dt b ts sc).2.1 (tickParcel ops img s hs dt b ts sc).2.2]
          exact ⟨rfl, rfl, rfl⟩
        · have haeq : ∀ X Y, tickParcel ops img s hs dt a X Y =
              (match claimedIndex ops (movedParcel dt a) X with
                | none => (movedParcel dt a, X, Y)
                | some i =>
                    ({ movedParcel dt a with active := false }, deactivateAt X i, Y + 1)) := by
            intro X Y; rw [tickParcel_eq, if_neg ha, if_neg ga]
          have hbeq : ∀ X Y, tickParcel ops img s hs dt b X Y =
              (match claimedIndex ops (movedParcel dt b) X with
                | none => (movedParcel dt b, X, Y)
                | some i =>
                    ({ movedParcel dt b with active := false }, deactivateAt X i, Y + 1)) := by
            intro X Y; rw [tickParcel_eq, if_neg hb, if_neg gb]
          cases hca : claimedIndex ops (movedParcel dt a) ts with
          | none =>
            have hA1 : tickParcel ops img s hs dt a ts sc = (movedParcel dt a, ts, sc) := by
              rw [haeq ts sc, hca]
            cases hcb : claimedIndex ops (movedParcel dt b) ts with
            | none =>
              have hB1 : tickParcel ops img s hs dt b ts sc = (movedParcel dt b, ts, sc) := by
                rw [hbeq ts sc, hcb]
              refine ⟨?_, ?_, ?_⟩ <;> simp only [hA1, hB1]
            | some ib =>
              have hB1 : tickParcel ops img s hs dt b ts sc =
                  ({ movedParcel dt b with active := false }, deactivateAt ts ib, sc + 1) := by
                rw [hbeq ts sc, hcb]
              have hA2 : tickParcel ops img s hs dt a (deactivateAt ts ib) (sc + 1) =
                  (movedParcel dt a, deactivateAt ts ib, sc + 1) := by
                rw [haeq _ _, claimedIndex_deactivateAt ops _ ts ib (hBnotA ib hcb), hca]
              refine ⟨?_, ?_, ?_⟩ <;> simp only [hA1, hB1, hA2]
          | some ia =>
            have hA1 : tickParcel ops img s hs dt a ts sc =
                ({ movedParcel dt a with active := false }, deactivateAt ts ia, sc + 1) := by
              rw [haeq ts sc, hca]
            cases hcb : claimedIndex ops (movedParcel dt b) ts with
            | none =>
              have hB1 : tickParcel ops img s hs dt b ts sc = (movedParcel dt b, ts, sc) := by
                rw [hbeq ts sc, hcb]
              have hB2 : tickParcel ops img s hs dt b (deactivateAt ts ia) (sc + 1) =
                  (movedParcel dt b, deactivateAt ts ia, sc + 1) := by
                rw [hbeq _ _, claimedIndex_deactivateAt ops _ ts ia (hAnotB ia hca), hcb]
              refine ⟨?_, ?_, ?_⟩ <;> simp only [hA1, hB1, hB2]
            | some ib =>
              have hB1 : tickParcel ops img s hs dt b ts sc =
                  ({ movedParcel dt b with active := false }, deactivateAt ts ib, sc + 1) := by
                rw [hbeq ts sc, hcb]
              have hB2 : tickParcel ops img s hs dt b (deactivateAt ts ia) (sc + 1) =
                  ({ movedParcel dt b with active := false },
                    deactivateAt (deactivateAt ts ia) ib, sc + 1 + 1) := by
                rw [hbeq _ _, claimedIndex_deactivateAt ops _ ts ia (hAnotB ia hca), hcb]
              have hA2 : tickParcel ops img s hs dt a (deactivateAt ts ib) (sc + 1) =
                  ({ movedParcel dt a with active := false },
                    deactivateAt (deactivateAt ts ib) ia, sc + 1 + 1) := by
                rw [haeq _ _, claimedIndex_deactivateAt ops _ ts ib (hBnotA ib hcb), hca]
              refine ⟨?_, ?_, ?_⟩ <;> simp only [hA1, hB1, hB2, hA2, deactivateAt_comm ts ia ib]

/-- Unfolding of the shared-state component of stepSim on a cons. -/
theorem stepSim_cons_state (ops : RealOps) (img : Image) (s hs dt : ℚ)
    (p : Parcel) (ps : List Parcel) (ts : List Target) (sc : ℕ) :
    (stepSim ops img s hs dt (p :: ps) ts sc).2 =
      (stepSim ops img s hs dt ps (tickParcel ops img s hs dt p ts sc).2.1
        (tickParcel ops img s hs dt p ts sc).2.2).2 := rfl

/-- C1 counterexample ingredients are below; first the amended theorem.
C1 (amended): within one simulation tick, permuting the relative order in
which the parcels are processed never changes the resulting target list or
score, and produces the same parcel outcomes up to the same permutation,
provided no target is within hit radius of the integrated positions of two
distinct active parcels that tick.  Without that proviso the order can
change even the final score, as stepSim_order_dependent_counterexample
shows. -/
theorem stepSim_order_independent (ops : RealOps) (img : Image) (s hs dt : ℚ)
    {l1 l2 : List Parcel} (hperm : l1.Perm l2) :
    ∀ ts sc, List.Pairwise (noSharedTarget ops dt ts) l1 →
      (stepSim ops img s hs dt l1 ts sc).1.Perm (stepSim ops img s hs dt l2 ts sc).1 ∧
      (stepSim ops img s hs dt l1 ts sc).2 = (stepSim ops img s hs dt l2 ts sc).2 := by
  induction hperm with
  | nil => exact fun ts sc _ => ⟨List.Perm.refl _, rfl⟩
  | cons x hxs ih =>
    intro ts sc hdisj
    have ih' := ih (tickParcel ops img s hs dt x ts sc).2.1
      (tickParcel ops img s hs dt x ts sc).2.2
      ((List.pairwise_cons.mp hdisj).2.imp
        (fun hab => noSharedTarget_after_tick ops img s hs dt x ts sc hab))
    refine ⟨?_, ?_⟩
    · rw [stepSim_cons_parcels, stepSim_cons_parcels]
      exact ih'.1.cons _
    · rw [stepSim_cons_state, stepSim_cons_state]
      exact ih'.2
  | swap x y l =>
    intro ts sc hdisj
    have hyx : noSharedTarget ops dt ts y x :=
      (List.pairwise_cons.mp hdisj).1 x (by simp)
    obtain ⟨hc1, hc2, hc3⟩ := tickParcel_comm ops img s hs dt y x ts sc hyx
    have h31 : (tickParcel ops img s hs dt x (tickParcel ops img s hs dt y ts sc).2.1
        (tickParcel ops img s hs dt y ts sc).2.2).2.1 =
      (tickParcel ops img s hs dt y (tickParcel ops img s hs dt x ts sc).2.1
        (tickParcel ops img s hs dt x ts sc).2.2).2.1 := congrArg Prod.fst hc3
    have h32 : (tickParcel ops img s hs dt x (tickParcel ops img s hs dt y ts sc).2.1
        (tickParcel ops img s hs dt y ts sc).2.2).2.2 =
      (tickParcel ops img s hs dt y (tickParcel ops img s hs dt x ts sc).2.1
        (tickParcel ops img s hs dt x ts sc).2.2).2.2 := congrArg Prod.snd hc3
    constructor
    · rw [stepSim_cons_parcels, stepSim_cons_parcels, stepSim_cons_parcels,
        stepSim_cons_parcels, hc2, ← hc1, h31, h32]
      exact List.Perm.swap _ _ _
    · rw [stepSim_cons_state, stepSim_cons_state, stepSim_cons_state,
        stepSim_cons_state, h31, h32]
  | trans h12 h23 ih1 ih2 =>
    intro ts sc hdisj
    have hmid := (List.Perm.pairwise_iff
      (fun hab => noSharedTarget_symm hab) h12).mp hdisj
    obtain ⟨g1, g2⟩ := ih1 ts sc hdisj
    obtain ⟨k1, k2⟩ := ih2 ts sc hmid
    exact ⟨g1.trans k1, g2.trans k2⟩

/-- Square-root interpretation used by the concrete runs below.  It is
exact on every argument those runs evaluate: the squared distances 4 and 36
map to 2 and 6, their true square roots, and any other argument q maps to
q itself, which the runs only ever compare against the radius sum 3 for
q ≥ 2116. -/
def exOps : RealOps :=
  ⟨fun _ => 0, fun _ => 0, fun q => if q = 4 then 2 else if q = 36 then 6 else q⟩

/-- First contending parcel: falls to (2, 1, 0), within radius of both
targets below. -/
def parcelA : Parcel := ⟨⟨2, 10.8, 0⟩, ⟨0, -9.8, 0⟩, 0.5, true⟩

/-- Second contending parcel: falls to (-2, 1, 0), within radius of
targetA only. -/
def parcelB : Parcel := ⟨⟨-2, 10.8, 0⟩, ⟨0, -9.8, 0⟩, 0.5, true⟩

/-- Far-away parcel: falls to (50, 1, 0), within radius of no target. -/
def parcelC : Parcel := ⟨⟨50, 10.8, 0⟩, ⟨0, -9.8, 0⟩, 0.5, true⟩

/-- Target at the origin column. -/
def targetA : Target := ⟨⟨0, 1, 0⟩, 2.5, true⟩

/-- Target four units along x. -/
def targetB : Target := ⟨⟨4, 1, 0⟩, 2.5, true⟩

/-- C1 counterexample: the claim says the relative order in which the
parcels are ticked never changes the score reached once all parcels are
inactive.  With parcelA falling within radius of both targets and parcelB
within radius of targetA only, two ticks of dt = 1 over flat terrain finish
with every parcel inactive in both orders, yet the order parcelA-first ends
with score 1 (parcelB finds targetA already destroyed, misses targetB, and
lands) while the order parcelB-first ends with score 2 (parcelB takes
targetA, parcelA then takes targetB). -/
theorem stepSim_order_dependent_counterexample :
    runSim exOps flatImage 2 10 1 2 [parcelA, parcelB] [targetA, targetB] 0 =
      ([⟨⟨2, 1, 0⟩, ⟨0, -9.8, 0⟩, 0.5, false⟩, ⟨⟨-2, -8.8, 0⟩, ⟨0, -9.8, 0⟩, 0.5, false⟩],
       [⟨⟨0, 1, 0⟩, 2.5, false⟩, ⟨⟨4, 1, 0⟩, 2.5, true⟩], 1) ∧
    runSim exOps flatImage 2 10 1 2 [parcelB, parcelA] [targetA, targetB] 0 =
      ([⟨⟨-2, 1, 0⟩, ⟨0, -9.8, 0⟩, 0.5, false⟩, ⟨⟨2, 1, 0⟩, ⟨0, -9.8, 0⟩, 0.5, false⟩],
       [⟨⟨0, 1, 0⟩, 2.5, false⟩, ⟨⟨4, 1, 0⟩, 2.5, false⟩], 2) ∧
    (1 : ℕ) ≠ 2 := by
  have hg2 : getTerrainHeight 2 0 flatImage 2 10 = 0 := by
    have hp : getTerrainHeightPixel 2 0 flatImage 2 = some (0, 0) := by
      norm_num [getTerrainHeightPixel, truncToNat, u32pred, flatImage]
    rw [getTerrainHeight, hp]; norm_num [flatImage]
  have hgm2 : getTerrainHeight (-2) 0 flatImage 2 10 = 0 := by
    have hp : getTerrainHeightPixel (-2) 0 flatImage 2 = some (0, 0) := by
      norm_num [getTerrainHeightPixel, truncToNat, u32pred, flatImage]
    rw [getTerrainHeight, hp]; norm_num [flatImage]
  refine ⟨?_, ?_, by norm_num⟩ <;>
    norm_num [runSim, stepSim, tickParcel, hitTest, hitsTarget, dist, exOps,
      Vec3.add, Vec3.smul, parcelA, parcelB, targetA, targetB, hg2, hgm2]

/-- Witness for the amended C1: the far parcel parcelC reaches no target,
so swapping it with parcelA preserves the tick outcome. -/
theorem stepSim_order_independent_witness :
    ([parcelA, parcelC].Perm [parcelC, parcelA]) ∧
    List.Pairwise (noSharedTarget exOps 1 [targetA, targetB]) [parcelA, parcelC] ∧
    ((stepSim exOps flatImage 2 10 1 [parcelA, parcelC] [targetA, targetB] 0).1.Perm
      (stepSim exOps flatImage 2 10 1 [parcelC, parcelA] [targetA, targetB] 0).1 ∧
     (stepSim exOps flatImage 2 10 1 [parcelA, parcelC] [targetA, targetB] 0).2 =
      (stepSim exOps flatImage 2 10 1 [parcelC, parcelA] [targetA, targetB] 0).2) := by
  have hperm : [parcelA, parcelC].Perm [parcelC, parcelA] :=
    List.Perm.swap parcelC parcelA []
  have hC : ∀ t ∈ [targetA, targetB],
      hitsTarget exOps (movedParcel 1 parcelC) t = false := by
    intro t ht
    rcases List.mem_cons.mp ht with rfl | ht2
    · norm_num [hitsTarget, dist, exOps, movedParcel, Vec3.add, Vec3.smul, parcelC, targetA]
    · rcases List.mem_cons.mp ht2 with rfl | ht3
      · norm_num [hitsTarget, dist, exOps, movedParcel, Vec3.add, Vec3.smul, parcelC, targetB]
      · simp at ht3
  have hpw : List.Pairwise (noSharedTarget exOps 1 [targetA, targetB]) [parcelA, parcelC] := by
    refine List.Pairwise.cons (fun p hp => ?_)
      (List.Pairwise.cons (fun p hp => by simp at hp) List.Pairwise.nil)
    obtain rfl : p = parcelC := by simpa using hp
    intro _ _ t ht hcon
    rw [hC t ht] at hcon
    exact Bool.false_ne_true hcon.2
  exact ⟨hperm, hpw,
    stepSim_order_independent exOps flatImage 2 10 1 hperm [targetA, targetB] 0 hpw⟩

end Indiv3
